import Mathlib

/-!
Verification of the live-poker-bench engine against its natural-language
specification.  The Python sources under `src/live_poker_bench/` are shallowly
embedded below: pure functions become Lean functions, the mutable
`GameState` / `PlacementScorer` / `Deck` objects become explicit state-passing
functions, Python `int` becomes `Int` (chip counts) or `Nat` (indices, counters),
and fallible operations (Python `raise`) return `Option` / `Except`.
External libraries used by the Python code (the `random` module's
Mersenne-Twister generator and the `treys` hand evaluator) are modelled as
explicit function parameters, since their code is not part of the repository.
-/

namespace LivePokerBench

/-! ### engine/deck.py -/

/-- Playing card with rank and suit, from `deck.py` (`Card`). -/
structure Card where
  rank : Char
  suit : Char
deriving DecidableEq, Repr

/-- Rank characters, from `deck.py` (`RANKS = "23456789TJQKA"`). -/
def RANKS : List Char := ['2', '3', '4', '5', '6', '7', '8', '9', 'T', 'J', 'Q', 'K', 'A']

/-- Suit characters, from `deck.py` (`SUITS = "cdhs"`). -/
def SUITS : List Char := ['c', 'd', 'h', 's']

/-- Standard 52-card deck, from `deck.py` (`create_standard_deck`). -/
def createStandardDeck : List Card :=
  (RANKS.map fun r => SUITS.map fun s => Card.mk r s).flatten

/-- State of a seeded deck, from `deck.py` (`Deck`): the card list, the state of
the pseudo-random generator bound at construction, and the dealt cursor. -/
structure Deck where
  cards : List Card
  rng : Nat
  dealtCount : Nat
deriving DecidableEq, Repr

/-- Swap of two list positions (the body of one Fisher-Yates step); if either
index is out of range the list is returned unchanged (the PRNG contract keeps
both indices in range, so that branch is never taken). -/
def listSwap (l : List Card) (i j : Nat) : List Card :=
  match l.get? i, l.get? j with
  | some a, some b => (l.set i b).set j a
  | _, _ => l

/-- Fisher-Yates loop of `random.shuffle`: for `i` from `len - 1` down to `1`,
draw `j = randbelow(i + 1)` and swap positions `i` and `j`.  The abstract
generator `rb` maps (state, bound) to (value, next state); the `% (i + 2)`
reduction is the identity for a conforming generator (which returns a value
below the bound). -/
def pyShuffleGo (rb : Nat → Nat → Nat × Nat) : Nat → List Card → Nat → List Card × Nat
  | 0, cards, s => (cards, s)
  | i + 1, cards, s =>
      let p := rb s (i + 2)
      pyShuffleGo rb i (listSwap cards (i + 1) (p.1 % (i + 2))) p.2

/-- Shuffle, from `deck.py` (`Deck.shuffle`): rebuild the standard deck,
shuffle it with the bound generator, and reset the dealt cursor to 0. -/
def Deck.shuffle (rb : Nat → Nat → Nat × Nat) (d : Deck) : Deck :=
  let res := pyShuffleGo rb (createStandardDeck.length - 1) createStandardDeck d.rng
  { cards := res.1, rng := res.2, dealtCount := 0 }

/-- Construction, from `deck.py` (`Deck.__init__`): bind the generator to the
seed (`random.Random(seed)`, abstracted as `seedInit`) and shuffle once. -/
def Deck.new (rb : Nat → Nat → Nat × Nat) (seedInit : Int → Nat) (seed : Int) : Deck :=
  Deck.shuffle rb { cards := createStandardDeck, rng := seedInit seed, dealtCount := 0 }

/-- Number of cards left, from `deck.py` (`Deck.remaining`). -/
def Deck.remaining (d : Deck) : Nat :=
  d.cards.length - d.dealtCount

/-- Deal `n` cards from the top, from `deck.py` (`Deck.deal`): returns `none`
where Python raises `ValueError` (not enough cards remain). -/
def Deck.deal (d : Deck) (n : Nat) : Option (List Card × Deck) :=
  if n > d.remaining then none
  else some ((d.cards.drop d.dealtCount).take n, { d with dealtCount := d.dealtCount + n })

/-- Well-formedness of a deck state: 52 cards and an in-range cursor. -/
def Deck.wf (d : Deck) : Prop :=
  d.cards.length = 52 ∧ d.dealtCount ≤ 52

instance (d : Deck) : Decidable d.wf := by
  unfold Deck.wf; infer_instance

/-- Operations a run performs on its deck. -/
inductive DeckOp
  | shuffle
  | deal (n : Nat)

/-- Run a sequence of deck operations, collecting the dealt card batches; a
failing deal (Python `ValueError`) aborts the run. -/
def Deck.runOps (rb : Nat → Nat → Nat × Nat) : Deck → List DeckOp → List (List Card) × Deck
  | d, [] => ([], d)
  | d, DeckOp.shuffle :: ops => Deck.runOps rb (d.shuffle rb) ops
  | d, DeckOp.deal n :: ops =>
      match d.deal n with
      | some (cs, d2) =>
          let rest := Deck.runOps rb d2 ops
          (cs :: rest.1, rest.2)
      | none => ([], d)

/-! ### tournament/scorer.py -/

/-- Record of a player elimination, from `scorer.py` (`Elimination`); the
`placement` field of the Python dataclass is never written by the scorer and is
omitted. -/
structure Elimination where
  seat : Nat
  agentName : String
  handNumber : Nat
deriving DecidableEq, Repr

/-- State of the placement scorer, from `scorer.py` (`PlacementScorer`).
Python's `set[int]` of active players and `dict[int, str]` of agent names are
modelled as lists (the scorer's observable outputs do not depend on their
iteration order). -/
structure PlacementScorer where
  numPlayers : Nat
  eliminations : List Elimination
  activePlayers : List Nat
  agentNames : List (Nat × String)
deriving DecidableEq, Repr

/-- Constructor, from `scorer.py` (`PlacementScorer.__init__`): active players
are seats `1 .. numPlayers`. -/
def PlacementScorer.new (numPlayers : Nat) : PlacementScorer :=
  { numPlayers := numPlayers
    eliminations := []
    activePlayers := List.range' 1 numPlayers
    agentNames := [] }

/-- Name lookup with default, from `scorer.py` (`self._agent_names.get(seat,
f"Player_{seat}")`). -/
def lookupAgentName (names : List (Nat × String)) (seat : Nat) : String :=
  match names.find? (fun p => p.1 = seat) with
  | some p => p.2
  | none => "Player_" ++ toString seat

/-- Registration, from `scorer.py` (`PlacementScorer.register_player`). -/
def PlacementScorer.registerPlayer (sc : PlacementScorer) (seat : Nat) (name : String) :
    PlacementScorer :=
  { sc with agentNames := (seat, name) :: sc.agentNames.filter (fun p => p.1 ≠ seat) }

/-- Single elimination, from `scorer.py` (`PlacementScorer.record_elimination`):
a seat that is not in the active set is ignored; otherwise it is removed from
the active set and appended to the elimination log. -/
def PlacementScorer.recordElimination (sc : PlacementScorer) (seat : Nat) (handNumber : Nat) :
    PlacementScorer :=
  if seat ∈ sc.activePlayers then
    { sc with
      activePlayers := sc.activePlayers.erase seat
      eliminations := sc.eliminations ++
        [{ seat := seat, agentName := lookupAgentName sc.agentNames seat,
           handNumber := handNumber }] }
  else sc

/-- Simultaneous eliminations, from `scorer.py`
(`PlacementScorer.record_multi_elimination`): the Python loop body is literally
the body of `record_elimination`, applied to each seat in order. -/
def PlacementScorer.recordMultiElimination (sc : PlacementScorer) (seats : List Nat)
    (handNumber : Nat) : PlacementScorer :=
  seats.foldl (fun s seat => s.recordElimination seat handNumber) sc

/-- Termination test, from `scorer.py` (`PlacementScorer.is_tournament_over`). -/
def PlacementScorer.isTournamentOver (sc : PlacementScorer) : Bool :=
  sc.activePlayers.length ≤ 1

/-- Placement assignment loop of `scorer.py` (`calculate_placements`): hand
numbers are processed in decreasing order; all eliminations of one hand share
the current placement, which then advances by the group size.  (The Python
code groups the reversed elimination list into a dict keyed by hand number and
sorts the keys in reverse; the group of a key is exactly the set of
eliminations with that hand number, which is how the group is computed here.) -/
def assignPlacements (elims : List Elimination) : List Nat → Nat → List (Nat × Nat)
  | [], _ => []
  | h :: rest, cur =>
      let group := elims.filter (fun e => e.handNumber = h)
      group.map (fun e => (e.seat, cur)) ++ assignPlacements elims rest (cur + group.length)

/-- Final placements, from `scorer.py` (`PlacementScorer.calculate_placements`):
surviving seats get placement 1, then eliminated groups are placed from the
most recent hand backwards starting at `|active| + 1`.  The Python `dict` of
placements is modelled as an association list (seat, placement). -/
def PlacementScorer.calculatePlacements (sc : PlacementScorer) : List (Nat × Nat) :=
  sc.activePlayers.map (fun seat => (seat, 1)) ++
    assignPlacements sc.eliminations
      (((sc.eliminations.map (fun e => e.handNumber)).dedup).insertionSort (fun a b => a ≥ b))
      (sc.activePlayers.length + 1)

/-- Scorer state invariant: no duplicate active seats, no seat eliminated
twice, and no eliminated seat still active. -/
def ScorerInv (sc : PlacementScorer) : Prop :=
  sc.activePlayers.Nodup ∧ (sc.eliminations.map (fun e => e.seat)).Nodup ∧
    ∀ e ∈ sc.eliminations, e.seat ∉ sc.activePlayers

instance (sc : PlacementScorer) : Decidable (ScorerInv sc) := by
  unfold ScorerInv; infer_instance

/-- Accounting invariant: every one of the `numPlayers` seats is either active
or eliminated. -/
def scorerComplete (sc : PlacementScorer) : Prop :=
  sc.activePlayers.length + sc.eliminations.length = sc.numPlayers

instance (sc : PlacementScorer) : Decidable (scorerComplete sc) := by
  unfold scorerComplete; infer_instance

instance : IsTotal Nat (fun a b => a ≥ b) := ⟨fun a b => le_total b a⟩

instance : IsTrans Nat (fun a b => a ≥ b) := ⟨fun _ _ _ h1 h2 => le_trans h2 h1⟩

/-! ### engine/actions.py -/

/-- Action kinds, from `actions.py` (`ActionType`). -/
inductive ActionType
  | fold
  | call
  | raise
  | check
  | bet
  | allIn
  | postSB
  | postBB
deriving DecidableEq, Repr

/-- Poker action, from `actions.py` (`Action`). -/
structure Action where
  actionType : ActionType
  amount : Int := 0
  isAllIn : Bool := false
deriving DecidableEq, Repr

/-- Player state for action validation, from `actions.py` (`PlayerState`). -/
structure PlayerState where
  seat : Nat
  stack : Int
  betThisRound : Int := 0
  hasActed : Bool := false
  isAllIn : Bool := false
  hasFolded : Bool := false
deriving DecidableEq, Repr

/-- Betting state for action validation, from `actions.py` (`BettingState`). -/
structure BettingState where
  pot : Int
  currentBet : Int
  minRaise : Int
  bigBlind : Int
  lastRaiserSeat : Option Nat := none
  numActivePlayers : Nat := 0
deriving DecidableEq, Repr

/-- Legal-action computation, from `actions.py` (`get_legal_actions`): actions
are appended in the source order fold, check/call, bet/raise, all-in. -/
def get_legal_actions (player : PlayerState) (betting : BettingState) : List Action :=
  if player.hasFolded || player.isAllIn then []
  else
    let toCall := betting.currentBet - player.betThisRound
    let acts1 : List Action := if toCall > 0 then [{ actionType := .fold }] else []
    let acts2 : List Action :=
      if toCall = 0 then acts1 ++ [{ actionType := .check }]
      else if toCall ≥ player.stack then
        acts1 ++ [{ actionType := .call, amount := player.stack, isAllIn := true }]
      else acts1 ++ [{ actionType := .call, amount := toCall }]
    if player.stack > toCall then
      let chipsAfterCall := player.stack - toCall
      if betting.currentBet = 0 then
        let minBet := betting.bigBlind
        if chipsAfterCall ≥ minBet then
          let acts3 := acts2 ++ [{ actionType := .bet, amount := minBet }]
          if player.stack > minBet then
            acts3 ++ [{ actionType := .allIn, amount := player.stack, isAllIn := true }]
          else acts3
        else acts2
      else
        let minRaiseTo := betting.currentBet + betting.minRaise
        let totalNeeded := minRaiseTo - player.betThisRound
        if player.stack ≥ totalNeeded then
          let acts3 := acts2 ++ [{ actionType := .raise, amount := minRaiseTo }]
          let maxRaiseTo := player.stack + player.betThisRound
          if maxRaiseTo > minRaiseTo then
            acts3 ++ [{ actionType := .allIn, amount := maxRaiseTo, isAllIn := true }]
          else acts3
        else if player.stack > toCall then
          acts2 ++
            [{ actionType := .allIn, amount := player.stack + player.betThisRound,
               isAllIn := true }]
        else acts2
    else acts2

/-- Action validation, from `actions.py` (`validate_action`); returns the
(is_valid, error_message) pair of the source. -/
def validate_action (action : Action) (player : PlayerState) (betting : BettingState) :
    Bool × String :=
  if player.hasFolded then (false, "Player has already folded")
  else if player.isAllIn then (false, "Player is already all-in")
  else
    let toCall := betting.currentBet - player.betThisRound
    match action.actionType with
    | .fold =>
        if toCall = 0 then
          (false, "Cannot fold when there is nothing to call (check instead)")
        else (true, "")
    | .check =>
        if toCall > 0 then (false, "Cannot check when facing a bet") else (true, "")
    | .call =>
        if toCall = 0 then (false, "Nothing to call (check instead)")
        else
          let expected := min toCall player.stack
          if action.amount ≠ expected then (false, "Call amount mismatch") else (true, "")
    | .bet | .raise | .allIn =>
        if action.amount > player.stack + player.betThisRound then
          (false, "Cannot bet more than stack allows")
        else if action.isAllIn = true ∧ action.amount = player.stack + player.betThisRound then
          (true, "")
        else if betting.currentBet = 0 then
          if action.amount < betting.bigBlind then (false, "Minimum bet is the big blind")
          else (true, "")
        else
          let minRaiseTo := betting.currentBet + betting.minRaise
          if action.amount < minRaiseTo ∧ action.isAllIn = false then
            (false, "Minimum raise not met")
          else (true, "")
    | _ => (false, "Unknown action type")

/-- Agent-request normalisation, from `actions.py` (`normalize_action`); the
Python `ValueError` cases become `Except.error`. -/
def normalize_action (actionType : String) (amount : Option Int) (player : PlayerState)
    (betting : BettingState) : Except String Action :=
  let actionType := actionType.toLower.trim
  let toCall := betting.currentBet - player.betThisRound
  if actionType = "fold" then
    if toCall = 0 then Except.ok { actionType := .check }
    else Except.ok { actionType := .fold }
  else if actionType = "call" then
    if toCall = 0 then Except.ok { actionType := .check }
    else if toCall ≥ player.stack then
      Except.ok { actionType := .call, amount := player.stack, isAllIn := true }
    else Except.ok { actionType := .call, amount := toCall }
  else if actionType = "check" then
    if toCall > 0 then Except.error "Cannot check when facing a bet"
    else Except.ok { actionType := .check }
  else if actionType = "raise" then
    match amount with
    | none => Except.error "Raise requires an amount"
    | some amt =>
        let maxAmount := player.stack + player.betThisRound
        let amt := if amt > maxAmount then maxAmount else amt
        let isAllIn := decide (amt = maxAmount)
        if betting.currentBet = 0 then
          Except.ok { actionType := .bet, amount := amt, isAllIn := isAllIn }
        else Except.ok { actionType := .raise, amount := amt, isAllIn := isAllIn }
  else Except.error "Unknown action type"

/-! ### agents/base.py -/

/-- Observation sent to an agent, from `base.py` (`Observation`): the scalar
fields consumed by the embedded operations; the `players` and
`actions_this_hand` display lists and the free-text position label are not read
by any embedded operation and are omitted.  Note that `current_bet` in the
observation is the amount to call, and `min_raise`/`max_raise` are raise-to
totals. -/
structure Observation where
  handNumber : Nat
  street : String
  mySeat : Nat
  myHoleCards : List String
  myStack : Int
  communityCards : List String
  potSize : Int
  currentBet : Int
  minRaise : Int
  maxRaise : Int
  smallBlind : Int
  bigBlind : Int
  buttonSeat : Nat
  legalActions : List String
deriving DecidableEq, Repr

/-- Action returned by an agent, from `base.py` (`AgentAction`); the wall-clock
`thinking_time_ms` float is not modelled. -/
structure AgentAction where
  action : String
  raiseTo : Option Int := none
  reasoning : String := ""
  forced : Bool := false
  retries : Nat := 0
deriving DecidableEq, Repr

/-! ### agents/llm_agent.py -/

/-- Validation of a parsed agent action against the observation, from
`llm_agent.py` (`LLMAgent._validate_action`). -/
def llmValidateAction (action : AgentAction) (observation : Observation) : Bool × String :=
  if action.action ∉ observation.legalActions then
    (false, "Action not in legal actions")
  else if action.action = "raise" then
    match action.raiseTo with
    | none => (false, "Raise action requires raise_to amount")
    | some rt =>
        if rt < observation.minRaise ∧ rt < observation.myStack then
          (false, "Raise below minimum")
        else if rt > observation.maxRaise then
          (false, "Raise exceeds maximum")
        else (true, "")
  else (true, "")

/-- Outcome of one `call_with_tools` round trip as seen by the retry loop of
`LLMAgent.get_action`: a transport exception, an empty response (no text in
either the content or the reasoning channel), or a terminal text whose parse
(`_parse_action`) gives `some action` or fails with `none`. -/
inductive LlmAttempt
  | exn
  | empty
  | parsed (action : Option AgentAction)

/-- Retry loop of `llm_agent.py` (`LLMAgent.get_action`), with the remote model
abstracted as a stream `attempts` of per-call outcomes.  The Python loop
`while retries <= max_retries` either returns a validated action carrying the
current retry count, or falls through to the forced-fold return once `retries`
exceeds `max_retries`; every failing branch increments `retries` by one, so the
loop runs at most `max_retries + 1 - retries` further iterations, which is the
`fuel` argument (`fuel = 0` is exactly the loop exit condition). -/
def getActionGo (observation : Observation) (attempts : Nat → LlmAttempt) :
    Nat → Nat → Nat → AgentAction
  | 0, _, retries =>
      { action := "fold", reasoning := "Forced fold due to invalid actions",
        forced := true, retries := retries }
  | fuel + 1, turn, retries =>
      match attempts turn with
      | .exn => getActionGo observation attempts fuel (turn + 1) (retries + 1)
      | .empty => getActionGo observation attempts fuel (turn + 1) (retries + 1)
      | .parsed none => getActionGo observation attempts fuel (turn + 1) (retries + 1)
      | .parsed (some action) =>
          if (llmValidateAction action observation).1 then
            { action with retries := retries }
          else getActionGo observation attempts fuel (turn + 1) (retries + 1)

/-- Driver decision entry point, from `llm_agent.py` (`LLMAgent.get_action`):
the loop starts at `retries = 0` with budget `maxRetries + 1`. -/
def getAction (observation : Observation) (attempts : Nat → LlmAttempt)
    (maxRetries : Nat) : AgentAction :=
  getActionGo observation attempts (maxRetries + 1) 0 0

/-- Predicate stating that one model round trip fails to produce a
validated action (the empty, parse-failure, validation-failure and exception
branches of the loop, each of which consumes one retry). -/
def attemptFails (observation : Observation) : LlmAttempt → Prop
  | .exn => True
  | .empty => True
  | .parsed none => True
  | .parsed (some action) => (llmValidateAction action observation).1 = false

/-! ### engine/blinds.py -/

/-- Blind level, from `blinds.py` (`BlindLevel`); `hands = none` marks the
final, indefinitely-serving level. -/
structure BlindLevel where
  level : Nat
  hands : Option Nat
  smallBlind : Int
  bigBlind : Int
deriving DecidableEq, Repr

/-- Level-walking loop of `blinds.py` (`BlindSchedule.get_level_for_hand`). -/
def getLevelForHandGo (handsPlayed : Nat) : Nat → List BlindLevel → Option BlindLevel
  | _, [] => none
  | cumulative, l :: rest =>
      match l.hands with
      | none => some l
      | some h =>
          if handsPlayed < cumulative + h then some l
          else getLevelForHandGo handsPlayed (cumulative + h) rest

/-- Blind lookup, from `blinds.py` (`BlindSchedule.get_blinds`): level quotas
are consumed in order, the final level serves indefinitely, and if no level
matched the Python code returns the last level (hand numbers are 1-indexed;
the engine never queries hand 0). -/
def get_blinds (levels : List BlindLevel) (handNumber : Nat) : Int × Int :=
  match getLevelForHandGo (handNumber - 1) 0 levels with
  | some l => (l.smallBlind, l.bigBlind)
  | none =>
      match levels.getLast? with
      | some l => (l.smallBlind, l.bigBlind)
      | none => (0, 0)

/-- Default schedule, from `blinds.py` (`DEFAULT_BLIND_SCHEDULE`). -/
def DEFAULT_BLIND_SCHEDULE : List BlindLevel :=
  [⟨1, some 20, 1, 2⟩, ⟨2, some 20, 2, 4⟩, ⟨3, some 20, 4, 8⟩,
   ⟨4, some 20, 8, 16⟩, ⟨5, some 20, 16, 32⟩, ⟨6, none, 32, 64⟩]

/-! ### engine/evaluator.py -/

/-- Winner determination, from `evaluator.py` (`determine_winners`), with the
external `treys` hand evaluator abstracted as the rank function `evalHand`
(hole cards, board to rank; lower is better).  The Python function raises
unless the board has 5 cards and at least one player is given; the engine only
calls it in that situation (those branches return no winners here).  The
player dictionary is an association list in the engine's active-player
order. -/
def determine_winners (evalHand : List Card → List Card → Int)
    (playerHoleCards : List (Nat × List Card)) (communityCards : List Card) :
    List Nat × Int :=
  if communityCards.length ≠ 5 then ([], 0)
  else
    let ranks := playerHoleCards.map (fun p => (p.1, evalHand p.2 communityCards))
    match (ranks.map (fun p => p.2)).min? with
    | none => ([], 0)
    | some bestRank =>
        ((ranks.filter (fun p => decide (p.2 = bestRank))).map (fun p => p.1), bestRank)

/-! ### engine/game.py -/

/-- Betting streets, from `game.py` (`Street`). -/
inductive Street
  | preflop
  | flop
  | turn
  | river
  | showdown
deriving DecidableEq, Repr

/-- Player in the game, from `game.py` (`Player`). -/
structure Player where
  seat : Nat
  name : String
  stack : Int
  holeCards : List Card := []
  betThisRound : Int := 0
  betThisHand : Int := 0
  hasActed : Bool := false
  isAllIn : Bool := false
  hasFolded : Bool := false
deriving DecidableEq, Repr, Inhabited

/-- Conversion for validation, from `game.py` (`Player.to_state`). -/
def Player.toState (p : Player) : PlayerState :=
  { seat := p.seat, stack := p.stack, betThisRound := p.betThisRound,
    hasActed := p.hasActed, isAllIn := p.isAllIn, hasFolded := p.hasFolded }

/-- Per-hand reset, from `game.py` (`Player.reset_for_hand`). -/
def Player.resetForHand (p : Player) : Player :=
  { p with
    holeCards := [], betThisRound := 0, betThisHand := 0,
    hasActed := false, isAllIn := false, hasFolded := false }

/-- Per-street reset, from `game.py` (`Player.reset_for_street`). -/
def Player.resetForStreet (p : Player) : Player :=
  { p with betThisRound := 0, hasActed := false }

/-- Action log record, from `game.py` (`HandAction`). -/
structure HandAction where
  street : Street
  seat : Nat
  action : Action
  potAfter : Int
deriving DecidableEq, Repr

/-- Game state, from `game.py` (`GameState.__init__`): the Python seat-keyed
player dict is a list in insertion order (seats are unique); the blind
schedule is its level list. -/
structure GameState where
  players : List Player
  deck : Deck
  blindLevels : List BlindLevel
  buttonSeat : Nat
  handNumber : Nat := 0
  street : Street := .preflop
  communityCards : List Card := []
  pot : Int := 0
  sidePots : List (Int × List Nat) := []
  currentBet : Int := 0
  minRaise : Int := 0
  lastRaiser : Option Nat := none
  actions : List HandAction := []
  actionTo : Option Nat := none
  handComplete : Bool := false
deriving DecidableEq, Repr

/-- Seat lookup (`self.players[seat]`); seats are unique, and the engine only
looks up seats that exist (a Python `KeyError` is unreachable). -/
def GameState.getPlayer (g : GameState) (seat : Nat) : Player :=
  (g.players.find? (fun p => decide (p.seat = seat))).getD default

/-- In-place mutation of one player object, as explicit state passing. -/
def GameState.updatePlayer (g : GameState) (seat : Nat) (f : Player → Player) : GameState :=
  { g with players := g.players.map (fun p => if p.seat = seat then f p else p) }

/-- Non-folded players, from `game.py` (`GameState.active_players`). -/
def GameState.activePlayers (g : GameState) : List Player :=
  g.players.filter (fun p => !p.hasFolded)

/-- Players able to act, from `game.py` (`GameState.players_to_act`). -/
def GameState.playersToAct (g : GameState) : List Player :=
  g.activePlayers.filter (fun p => !p.isAllIn)

/-- Clockwise seat order from the button, from `game.py`
(`GameState.seats_in_order`): sorted seats rotated to start after the
button. -/
def GameState.seatsInOrder (g : GameState) : List Nat :=
  let seats := (g.players.map (fun p => p.seat)).insertionSort (fun a b => a ≤ b)
  match seats.findIdx? (fun s => decide (s = g.buttonSeat)) with
  | some i => seats.drop (i + 1) ++ seats.take (i + 1)
  | none => seats

/-- Betting state snapshot, from `game.py` (`GameState.get_betting_state`). -/
def GameState.getBettingState (g : GameState) : BettingState :=
  let sbbb := get_blinds g.blindLevels g.handNumber
  { pot := g.pot, currentBet := g.currentBet, minRaise := g.minRaise,
    bigBlind := sbbb.2, lastRaiserSeat := g.lastRaiser,
    numActivePlayers := g.activePlayers.length }

/-- Deal from the engine's deck; `start_hand` reshuffles all 52 cards each
hand, so the engine never requests more cards than remain (where the Python
`deal` would raise `ValueError`, this returns no cards). -/
def GameState.dealCards (g : GameState) (n : Nat) : List Card × GameState :=
  match g.deck.deal n with
  | some (cs, d) => (cs, { g with deck := d })
  | none => ([], g)

/-- Chip movement of a bet or call, from `game.py` (`GameState._apply_bet`). -/
def GameState.applyBet (g : GameState) (seat : Nat) (amount : Int) (isAllIn : Bool) :
    GameState :=
  let g := g.updatePlayer seat (fun p =>
    { p with
      stack := p.stack - amount, betThisRound := p.betThisRound + amount,
      betThisHand := p.betThisHand + amount })
  let g := { g with pot := g.pot + amount }
  if isAllIn then g.updatePlayer seat (fun p => { p with isAllIn := true }) else g

/-- Blind posting for one seat, from `game.py` (`GameState._post_blind`): a
short stack posts all-in; `bet_this_round`/`bet_this_hand` are assigned (not
added); the current bet only rises when the blind was posted in full. -/
def GameState.postBlind (g : GameState) (seat : Nat) (amount : Int)
    (actionType : ActionType) : GameState :=
  let player := g.getPlayer seat
  let actual := min amount player.stack
  let g := g.updatePlayer seat (fun p =>
    { p with stack := p.stack - actual, betThisRound := actual, betThisHand := actual })
  let g := { g with pot := g.pot + actual }
  let g := if actual ≥ amount then { g with currentBet := max g.currentBet actual } else g
  let g := if (g.getPlayer seat).stack = 0 then
      g.updatePlayer seat (fun p => { p with isAllIn := true })
    else g
  let record : HandAction :=
    { street := g.street, seat := seat,
      action := { actionType := actionType, amount := actual,
                  isAllIn := (g.getPlayer seat).isAllIn },
      potAfter := g.pot }
  { g with actions := g.actions ++ [record] }

/-- Blind posting, from `game.py` (`GameState._post_blinds`): heads-up the
button posts the small blind; otherwise the two seats after the button post
(with `btn_idx = -1` when the button seat is not active). -/
def GameState.postBlinds (g : GameState) : GameState :=
  let sbbb := get_blinds g.blindLevels g.handNumber
  let g := { g with minRaise := sbbb.2 }
  let activeSeats : List Nat := g.activePlayers.map (fun p => p.seat)
  let seatsInOrder : List Nat := g.seatsInOrder.filter (fun s => decide (s ∈ activeSeats))
  if seatsInOrder.length < 2 then g
  else if seatsInOrder.length = 2 then
    let sbSeat := if g.buttonSeat ∈ activeSeats then g.buttonSeat else seatsInOrder.headD 0
    let bbSeat := (seatsInOrder.filter (fun s => decide (s ≠ sbSeat))).headD 0
    (g.postBlind sbSeat sbbb.1 .postSB).postBlind bbSeat sbbb.2 .postBB
  else
    let btnIdx : Int :=
      match seatsInOrder.findIdx? (fun s => decide (s = g.buttonSeat)) with
      | some i => (i : Int)
      | none => -1
    let len : Int := (seatsInOrder.length : Int)
    let sbSeat := seatsInOrder.getD ((btnIdx + 1) % len).toNat 0
    let bbSeat := seatsInOrder.getD ((btnIdx + 2) % len).toNat 0
    (g.postBlind sbSeat sbbb.1 .postSB).postBlind bbSeat sbbb.2 .postBB

/-- Fold-out ending, from `game.py` (`GameState._end_hand_no_showdown`). -/
def GameState.endHandNoShowdown (g : GameState) : GameState :=
  let winner := g.activePlayers.headD default
  let g := g.updatePlayer winner.seat (fun p => { p with stack := p.stack + g.pot })
  { g with handComplete := true, street := .showdown }

/-- Side-pot construction, from `game.py` (`GameState._calculate_side_pots`):
only runs when some active player is all-in; the bet levels are the distinct
positive `bet_this_hand` values of the non-folded players, ascending, and each
gap collects the contributions of the non-folded players, with eligibility for
those whose total bet reaches the level. -/
def GameState.calculateSidePots (g : GameState) : GameState :=
  if !(g.activePlayers.any (fun p => p.isAllIn)) then g
  else
    let betLevels := (((g.activePlayers.filter (fun p => p.betThisHand > 0)).map
        (fun p => p.betThisHand)).dedup).insertionSort (fun a b => a ≤ b)
    let res := betLevels.foldl
      (fun (acc : List (Int × List Nat) × Int) (level : Int) =>
        let contrib := g.activePlayers.foldl
          (fun (pe : Int × List Nat) p =>
            let contribution := min p.betThisHand level - acc.2
            if contribution > 0 then
              (pe.1 + contribution,
               if p.betThisHand ≥ level then pe.2 ++ [p.seat] else pe.2)
            else pe)
          (0, [])
        (if contrib.1 > 0 then acc.1 ++ [(contrib.1, contrib.2)] else acc.1, level))
      ([], 0)
    { g with sidePots := res.1 }

/-- Pot distribution loop of `game.py` (`GameState._showdown`): integer share
per winner plus one remainder chip to the first `remainder` winners in list
order.  `Int.ediv`/`Int.emod` coincide with Python floor division for the
positive divisors that occur (the winner list is never empty when a pot is
awarded). -/
def GameState.awardPot (g : GameState) (amount : Int) (winnersList : List Nat) : GameState :=
  let share := Int.ediv amount (winnersList.length : Int)
  let remainder := Int.emod amount (winnersList.length : Int)
  winnersList.enum.foldl
    (fun (g2 : GameState) (iw : Nat × Nat) =>
      g2.updatePlayer iw.2 (fun p =>
        { p with stack := p.stack + share + (if (iw.1 : Int) < remainder then 1 else 0) }))
    g

/-- Showdown, from `game.py` (`GameState._showdown`): a lone survivor takes
the whole pot; otherwise the winners are determined once and either the whole
pot (no side pots) or each side pot is awarded, re-evaluating among a side
pot's eligible seats when no overall winner is eligible for it. -/
def GameState.showdown (evalHand : List Card → List Card → Int) (g : GameState) : GameState :=
  let g := { g with street := .showdown, handComplete := true }
  if g.activePlayers.length = 1 then
    let winner := g.activePlayers.headD default
    g.updatePlayer winner.seat (fun p => { p with stack := p.stack + g.pot })
  else
    let playerCards := g.activePlayers.map (fun p => (p.seat, p.holeCards))
    let winners := (determine_winners evalHand playerCards g.communityCards).1
    if g.sidePots.isEmpty then
      g.awardPot g.pot winners
    else
      g.sidePots.foldl
        (fun (g2 : GameState) (pe : Int × List Nat) =>
          let eligibleWinners := winners.filter (fun w => decide (w ∈ pe.2))
          let eligibleWinners :=
            if eligibleWinners.isEmpty then
              (determine_winners evalHand (playerCards.filter (fun pc => decide (pc.1 ∈ pe.2)))
                g.communityCards).1
            else eligibleWinners
          g2.awardPot pe.1 eligibleWinners)
        g

/-- Board run-out, from `game.py` (`GameState._run_out_board`): deal the
missing flop/turn/river and go to showdown. -/
def GameState.runOutBoard (evalHand : List Card → List Card → Int) (g : GameState) :
    GameState :=
  let g := if g.communityCards.length = 0 then
      let r := g.dealCards 3
      { r.2 with communityCards := r.2.communityCards ++ r.1, street := .flop }
    else g
  let g := if g.communityCards.length = 3 then
      let r := g.dealCards 1
      { r.2 with communityCards := r.2.communityCards ++ r.1, street := .turn }
    else g
  let g := if g.communityCards.length = 4 then
      let r := g.dealCards 1
      { r.2 with communityCards := r.2.communityCards ++ r.1, street := .river }
    else g
  GameState.showdown evalHand g

/-- Postflop action pointer, from `game.py` (`GameState._set_postflop_action`):
returns `none` when there is nobody to act (the Python code then recurses into
`_end_betting_round`, handled by the caller). -/
def GameState.setPostflopPure (g : GameState) : Option GameState :=
  let activeSeats := g.playersToAct.map (fun p => p.seat)
  if activeSeats.isEmpty then none
  else
    let seatsInOrder := g.seatsInOrder.filter (fun s => decide (s ∈ activeSeats))
    some { g with actionTo := seatsInOrder.head? }

/-- Street close and advance, from `game.py` (`GameState._end_betting_round`):
side pots are computed, per-street player state is reset (`min_raise` is not
touched by the source), the next street is dealt (or the showdown runs), and
if at most one seat can still act while two or more are live, the board is run
out.  The street strictly advances on each recursive pass, so the `fuel`
argument (always called with at least 8) never runs out. -/
def GameState.endBettingRound (evalHand : List Card → List Card → Int) :
    Nat → GameState → GameState
  | 0, g => g
  | fuel + 1, g =>
      let g := g.calculateSidePots
      let g := { g with
        players := g.players.map Player.resetForStreet,
        currentBet := 0, lastRaiser := none }
      let g :=
        match g.street with
        | .preflop =>
            let r := g.dealCards 3
            let g2 := { r.2 with
              street := .flop, communityCards := r.2.communityCards ++ r.1 }
            match g2.setPostflopPure with
            | some g3 => g3
            | none => GameState.endBettingRound evalHand fuel g2
        | .flop =>
            let r := g.dealCards 1
            let g2 := { r.2 with
              street := .turn, communityCards := r.2.communityCards ++ r.1 }
            match g2.setPostflopPure with
            | some g3 => g3
            | none => GameState.endBettingRound evalHand fuel g2
        | .turn =>
            let r := g.dealCards 1
            let g2 := { r.2 with
              street := .river, communityCards := r.2.communityCards ++ r.1 }
            match g2.setPostflopPure with
            | some g3 => g3
            | none => GameState.endBettingRound evalHand fuel g2
        | .river => GameState.showdown evalHand g
        | .showdown => g
      if g.playersToAct.length ≤ 1 ∧ g.activePlayers.length > 1 ∧ g.street ≠ .showdown then
        GameState.runOutBoard evalHand g
      else g

/-- Preflop action pointer, from `game.py` (`GameState._set_preflop_action`):
first seat after the big blind; recurses into `_end_betting_round` when nobody
can act. -/
def GameState.setPreflopAction (evalHand : List Card → List Card → Int) (fuel : Nat)
    (g : GameState) : GameState :=
  let activeSeats := g.playersToAct.map (fun p => p.seat)
  if activeSeats.isEmpty then GameState.endBettingRound evalHand fuel g
  else
    let seatsInOrder := g.seatsInOrder.filter (fun s => decide (s ∈ activeSeats))
    match (g.actions.filter (fun a => decide (a.action.actionType = ActionType.postBB))).head? with
    | some bba =>
        match seatsInOrder.findIdx? (fun s => decide (s = bba.seat)) with
        | some bbIdx =>
            { g with
              actionTo := some (seatsInOrder.getD ((bbIdx + 1) % seatsInOrder.length) 0) }
        | none => { g with actionTo := seatsInOrder.head? }
    | none => { g with actionTo := seatsInOrder.head? }

/-- Action-pointer advance, from `game.py` (`GameState._advance_action`): ends
the hand when one player remains, closes the street when everyone has acted
with matched bets (or nobody can act), and otherwise moves clockwise to the
next seat that still owes action. -/
def GameState.advanceAction (evalHand : List Card → List Card → Int) (fuel : Nat)
    (g : GameState) : GameState :=
  if g.activePlayers.length = 1 then g.endHandNoShowdown
  else if g.playersToAct.isEmpty then GameState.endBettingRound evalHand fuel g
  else
    let allActed := g.playersToAct.all (fun p => p.hasActed)
    let betsMatched := g.activePlayers.all
      (fun p => decide (p.betThisRound = g.currentBet) || p.isAllIn)
    if allActed ∧ betsMatched then GameState.endBettingRound evalHand fuel g
    else
      let activeSeats := (g.playersToAct.filter
          (fun p => !p.hasActed || decide (p.betThisRound < g.currentBet))).map
        (fun p => p.seat)
      if activeSeats.isEmpty then GameState.endBettingRound evalHand fuel g
      else
        let sio := g.seatsInOrder
        match sio.findIdx? (fun s => decide (g.actionTo = some s)) with
        | none => GameState.endBettingRound evalHand fuel g
        | some currentIdx =>
            match (List.range' 1 sio.length).find?
                (fun i => decide (sio.getD ((currentIdx + i) % sio.length) 0 ∈ activeSeats)) with
            | some i =>
                { g with actionTo := some (sio.getD ((currentIdx + i) % sio.length) 0) }
            | none => GameState.endBettingRound evalHand fuel g

/-- Action application, from `game.py` (`GameState.apply_action`): turn check,
validation, chip movement, raise bookkeeping (any bet/raise/all-in updates
`current_bet`, floors `min_raise` at the big blind, and resets `has_acted` for
every other non-folded, non-all-in player), log append, pointer advance. -/
def GameState.applyAction (evalHand : List Card → List Card → Int) (g : GameState)
    (seat : Nat) (action : Action) : GameState × Bool × String :=
  if g.actionTo ≠ some seat then
    (g, false, "Not this seat's turn to act")
  else
    let player := g.getPlayer seat
    let betting := g.getBettingState
    let v := validate_action action player.toState betting
    if v.1 = false then (g, false, v.2)
    else
      let g :=
        match action.actionType with
        | .fold => g.updatePlayer seat (fun p => { p with hasFolded := true })
        | .check => g
        | .call => g.applyBet seat action.amount action.isAllIn
        | .bet | .raise | .allIn =>
            let raiseAmount := action.amount - player.betThisRound
            let g := g.applyBet seat raiseAmount action.isAllIn
            let g := { g with currentBet := action.amount }
            let mr := action.amount - betting.currentBet
            let g := { g with
              minRaise := if mr < betting.bigBlind then betting.bigBlind else mr }
            let g := { g with lastRaiser := some seat }
            { g with
              players := g.players.map (fun (p : Player) =>
                if !p.hasFolded && !p.isAllIn && p.seat != seat then
                  { p with hasActed := false }
                else p) }
        | _ => g
      let g := g.updatePlayer seat (fun p => { p with hasActed := true })
      let record : HandAction :=
        { street := g.street, seat := seat, action := action, potAfter := g.pot }
      let g := { g with actions := g.actions ++ [record] }
      (GameState.advanceAction evalHand 8 g, true, "")

/-- Hand start, from `game.py` (`GameState.start_hand`): reset the hand state,
mark busted seats folded, reshuffle, deal two hole cards to each active player
in player order, post blinds, and set the preflop action pointer. -/
def GameState.startHand (rb : Nat → Nat → Nat × Nat)
    (evalHand : List Card → List Card → Int) (g : GameState) (handNumber : Nat) :
    GameState :=
  let g := { g with
    handNumber := handNumber, street := .preflop, communityCards := [],
    pot := 0, sidePots := [], currentBet := 0, minRaise := 0, lastRaiser := none,
    actions := [], actionTo := none, handComplete := false }
  let g := { g with
    players := g.players.map (fun (p : Player) =>
      if p.stack > 0 then p.resetForHand else { p with hasFolded := true }) }
  let g := { g with deck := g.deck.shuffle rb }
  let g := g.activePlayers.foldl
    (fun (g2 : GameState) (p : Player) =>
      let r := g2.dealCards 2
      r.2.updatePlayer p.seat (fun q => { q with holeCards := r.1 }))
    g
  let g := g.postBlinds
  GameState.setPreflopAction evalHand 8 g

/-- Total chips held in player stacks. -/
def GameState.totalStacks (g : GameState) : Int :=
  (g.players.map (fun p => p.stack)).sum

/-! ### tournament/runner.py -/

/-- Legal-action list presented to the agent, from `runner.py`
(`TournamentRunner._build_observation`): the four inputs are exactly the fields
the code reads (`player.stack`, `player.bet_this_round`, `game.current_bet`,
`game.min_raise`).  The list always starts with "fold". -/
def runnerLegalActions (stack betThisRound currentBet minRaise : Int) : List String :=
  let toCall := currentBet - betThisRound
  let legal := ["fold"]
  let legal := if toCall = 0 then legal ++ ["check"] else legal ++ ["call"]
  let minRaiseTo := currentBet + minRaise
  if stack > toCall ∧ minRaiseTo ≤ stack + betThisRound then legal ++ ["raise"] else legal

/-- Agent-action conversion, from `runner.py` (`TournamentRunner._convert_action`):
`raise_to` is defaulted through Python `or` (a missing or zero value becomes
`obs.min_raise`), clamped into `[obs.min_raise, obs.max_raise]`, and mapped to
a bet when there is no current bet; an unknown kind defaults to fold. -/
def convert_action (agentAction : AgentAction) (player : Player) (obs : Observation)
    (gameCurrentBet : Int) : Action :=
  let toCall := gameCurrentBet - player.betThisRound
  if agentAction.action = "fold" then { actionType := .fold }
  else if agentAction.action = "check" then { actionType := .check }
  else if agentAction.action = "call" then
    if toCall = 0 then { actionType := .check }
    else
      let callAmount := min toCall player.stack
      { actionType := .call, amount := callAmount,
        isAllIn := decide (callAmount ≥ player.stack) }
  else if agentAction.action = "raise" then
    let raiseTo :=
      match agentAction.raiseTo with
      | some v => if v ≠ 0 then v else obs.minRaise
      | none => obs.minRaise
    let raiseTo := max obs.minRaise (min raiseTo obs.maxRaise)
    let isAllIn := decide (raiseTo ≥ player.stack + player.betThisRound)
    if gameCurrentBet = 0 then { actionType := .bet, amount := raiseTo, isAllIn := isAllIn }
    else { actionType := .raise, amount := raiseTo, isAllIn := isAllIn }
  else { actionType := .fold }

/-- Concrete observation used as a test input for the driver theorems: flop,
nothing to call, check legal. -/
def obsFlopCheck : Observation :=
  { handNumber := 1, street := "flop", mySeat := 1, myHoleCards := ["Ah", "Kd"],
    myStack := 100, communityCards := [], potSize := 10, currentBet := 0, minRaise := 4,
    maxRaise := 100, smallBlind := 1, bigBlind := 2, buttonSeat := 1,
    legalActions := ["fold", "check", "raise"] }

/-- Concrete stand-in for the PRNG in scenario runs (the scenario
conclusions do not depend on the shuffle order). -/
def rbTest : Nat → Nat → Nat × Nat := fun s n => (s % n, s + 1)

/-- Concrete stand-in rank function for scenario runs: every hand ties (the
scenario conclusions do not depend on hand strength). -/
def evalHandTest : List Card → List Card → Int := fun _ _ => 0

/-- Scenario game for the chip-conservation and side-pot claims: seats 1 and
2 hold 100 chips, seat 3 holds 10; button on seat 1; default blinds (1/2 on
hand 1, so seat 2 posts 1 and seat 3 posts 2). -/
def gameA : GameState :=
  { players := [{ seat := 1, name := "A", stack := 100 },
                { seat := 2, name := "B", stack := 100 },
                { seat := 3, name := "C", stack := 10 }],
    deck := { cards := createStandardDeck, rng := 0, dealtCount := 0 },
    blindLevels := DEFAULT_BLIND_SCHEDULE,
    buttonSeat := 1 }

/-- First action of the scenario hand: seat 1 (button) raises to 10. -/
def gameAStep1 : GameState × Bool × String :=
  (gameA.startHand rbTest evalHandTest 1).applyAction evalHandTest 1
    { actionType := .raise, amount := 10 }

/-- Second action: seat 2 folds, abandoning its posted small blind of 1. -/
def gameAStep2 : GameState × Bool × String :=
  gameAStep1.1.applyAction evalHandTest 2 { actionType := .fold }

/-- Third action: seat 3 calls all-in for its remaining 8 chips; the board
then runs out and the showdown distributes the side pots. -/
def gameAStep3 : GameState × Bool × String :=
  gameAStep2.1.applyAction evalHandTest 3
    { actionType := .call, amount := 8, isAllIn := true }

/-- Scenario game for the all-in-for-less claim (spec scenario S4): seats 1
and 2 hold 200 chips, seat 3 holds 15; button on seat 1. -/
def gameB : GameState :=
  { players := [{ seat := 1, name := "A", stack := 200 },
                { seat := 2, name := "B", stack := 200 },
                { seat := 3, name := "C", stack := 15 }],
    deck := { cards := createStandardDeck, rng := 0, dealtCount := 0 },
    blindLevels := DEFAULT_BLIND_SCHEDULE,
    buttonSeat := 1 }

/-- S4 prefix: seat 1 raises to 10, seat 2 folds; action is on seat 3 (the
big blind) and the minimum raise-to is 10 + 8 = 18 < 20. -/
def gameBStep2 : GameState × Bool × String :=
  ((gameB.startHand rbTest evalHandTest 1).applyAction evalHandTest 1
    { actionType := .raise, amount := 10 }).1.applyAction evalHandTest 2
    { actionType := .fold }

/-- S4 short all-in: seat 3 moves all-in to 15 total, less than the minimum
raise-to of 18. -/
def gameBStep3 : GameState × Bool × String :=
  gameBStep2.1.applyAction evalHandTest 3
    { actionType := .allIn, amount := 15, isAllIn := true }

/-! ### Theorems -/

theorem listSwap_length (l : List Card) (i j : Nat) : (listSwap l i j).length = l.length := by
  unfold listSwap
  cases hi : l.get? i <;> cases hj : l.get? j <;> simp

theorem pyShuffleGo_length (rb : Nat → Nat → Nat × Nat) :
    ∀ (k : Nat) (cards : List Card) (s : Nat),
      (pyShuffleGo rb k cards s).1.length = cards.length := by
  intro k
  induction k with
  | zero => intro cards s; rfl
  | succ i ih =>
      intro cards s
      rw [pyShuffleGo, ih, listSwap_length]

theorem createStandardDeck_length : createStandardDeck.length = 52 := by decide

theorem Deck.shuffle_wf (rb : Nat → Nat → Nat × Nat) (d : Deck) : (d.shuffle rb).wf := by
  unfold Deck.wf Deck.shuffle
  dsimp only
  rw [pyShuffleGo_length, createStandardDeck_length]
  exact ⟨rfl, Nat.zero_le _⟩

/-- C6: two decks constructed with the same seed (and driven by the same
generator, bound at construction) produce identical results for every sequence
of shuffle/deal operations: every dealt batch and every intermediate state
coincide. -/
theorem deck_seed_determinism (rb : Nat → Nat → Nat × Nat) (seedInit : Int → Nat)
    (s1 s2 : Int) (h : s1 = s2) (ops : List DeckOp) :
    Deck.runOps rb (Deck.new rb seedInit s1) ops = Deck.runOps rb (Deck.new rb seedInit s2) ops :=
  congrArg (fun s => Deck.runOps rb (Deck.new rb seedInit s) ops) h

/-- Witness for `deck_seed_determinism` at a concrete generator, seed and
operation sequence. -/
theorem deck_seed_determinism_witness :
    Deck.runOps (fun s n => (s % n, s + 1))
        (Deck.new (fun s n => (s % n, s + 1)) Int.toNat 7)
        [DeckOp.shuffle, DeckOp.deal 2, DeckOp.deal 3] =
      Deck.runOps (fun s n => (s % n, s + 1))
        (Deck.new (fun s n => (s % n, s + 1)) Int.toNat 7)
        [DeckOp.shuffle, DeckOp.deal 2, DeckOp.deal 3] :=
  deck_seed_determinism (fun s n => (s % n, s + 1)) Int.toNat 7 7 rfl
    [DeckOp.shuffle, DeckOp.deal 2, DeckOp.deal 3]

/-- C10: dealing composes - on a well-formed deck, `deal n` followed by
`deal m` with `n + m ≤ remaining` yields exactly the cards of a single
`deal (n + m)` in the same order with the same final deck; moreover
`remaining + dealtCount = 52` holds between operations (well-formedness is
preserved by both operations), and `shuffle` resets the dealt count to 0. -/
theorem deck_deal_composes (rb : Nat → Nat → Nat × Nat) (d : Deck) (n m : Nat)
    (hwf : d.wf) (h : n + m ≤ d.remaining) :
    (d.deal n).bind (fun p => (p.2.deal m).map fun q => (p.1 ++ q.1, q.2)) = d.deal (n + m) ∧
    d.remaining + d.dealtCount = 52 ∧
    (∀ p, d.deal n = some p → p.2.wf ∧ p.2.remaining + p.2.dealtCount = 52) ∧
    (d.shuffle rb).dealtCount = 0 ∧ (d.shuffle rb).wf := by
  obtain ⟨hlen, hcur⟩ := hwf
  have hrem : d.remaining = 52 - d.dealtCount := by
    unfold Deck.remaining; omega
  have hn : ¬ n > d.remaining := by omega
  have hnm : ¬ n + m > d.remaining := by omega
  have e1 : d.deal n =
      some ((d.cards.drop d.dealtCount).take n, { d with dealtCount := d.dealtCount + n }) := by
    unfold Deck.deal; rw [if_neg hn]
  have e3 : d.deal (n + m) =
      some ((d.cards.drop d.dealtCount).take (n + m), { d with dealtCount := d.dealtCount + (n + m) }) := by
    unfold Deck.deal; rw [if_neg hnm]
  refine ⟨?_, by omega, ?_, rfl, Deck.shuffle_wf rb d⟩
  · have hm : ¬ m > ({ d with dealtCount := d.dealtCount + n } : Deck).remaining := by
      unfold Deck.remaining at hrem h ⊢
      simp only
      omega
    have e2 : ({ d with dealtCount := d.dealtCount + n } : Deck).deal m =
        some ((d.cards.drop (d.dealtCount + n)).take m,
          { d with dealtCount := d.dealtCount + n + m }) := by
      unfold Deck.deal; rw [if_neg hm]
    rw [e1, e3]
    show Option.map _ (Deck.deal _ m) = _
    rw [e2]
    refine congrArg some (Prod.ext ?_ ?_)
    · dsimp only
      rw [List.take_add, List.drop_drop]
    · dsimp only
      simp only [Deck.mk.injEq, true_and]
      omega
  · intro p hp
    rw [e1, Option.some_inj] at hp
    subst hp
    have hc : n ≤ 52 - d.dealtCount := by
      unfold Deck.remaining at hn; omega
    refine ⟨⟨hlen, by simpa using by omega⟩, ?_⟩
    unfold Deck.remaining
    simp only [hlen]
    omega

/-- Witness for `deck_deal_composes` on a concrete well-formed deck. -/
theorem deck_deal_composes_witness :
    let d : Deck := { cards := createStandardDeck, rng := 0, dealtCount := 0 }
    (d.deal 2).bind (fun p => (p.2.deal 3).map fun q => (p.1 ++ q.1, q.2)) = d.deal (2 + 3) ∧
    d.remaining + d.dealtCount = 52 ∧
    (∀ p, d.deal 2 = some p → p.2.wf ∧ p.2.remaining + p.2.dealtCount = 52) ∧
    (d.shuffle (fun s n => (s % n, s + 1))).dealtCount = 0 ∧
    (d.shuffle (fun s n => (s % n, s + 1))).wf :=
  deck_deal_composes (fun s n => (s % n, s + 1))
    { cards := createStandardDeck, rng := 0, dealtCount := 0 } 2 3
    (by constructor <;> decide) (by decide)

theorem recordElimination_of_not_mem (sc : PlacementScorer) (seat handNumber : Nat)
    (h : seat ∉ sc.activePlayers) : sc.recordElimination seat handNumber = sc := by
  unfold PlacementScorer.recordElimination
  rw [if_neg h]

theorem ScorerInv.record (sc : PlacementScorer) (seat handNumber : Nat)
    (hinv : ScorerInv sc) : ScorerInv (sc.recordElimination seat handNumber) := by
  obtain ⟨hact, helim, hdisj⟩ := hinv
  by_cases hm : seat ∈ sc.activePlayers
  · unfold PlacementScorer.recordElimination
    rw [if_pos hm]
    refine ⟨hact.erase seat, ?_, ?_⟩
    · rw [List.map_append, List.nodup_append]
      refine ⟨helim, List.nodup_singleton _, ?_⟩
      intro a ha hb
      simp only [List.map_cons, List.map_nil, List.mem_singleton] at hb
      subst hb
      obtain ⟨e, he, hseat⟩ := List.mem_map.mp ha
      exact hdisj e he (hseat ▸ hm)
    · intro e he
      rcases List.mem_append.mp he with h1 | h2
      · intro hc
        exact hdisj e h1 (List.erase_subset _ _ hc)
      · simp only [List.mem_singleton] at h2
        subst h2
        intro hc
        rw [List.Nodup.mem_erase_iff hact] at hc
        exact hc.1 rfl
  · rw [recordElimination_of_not_mem sc seat handNumber hm]
    exact ⟨hact, helim, hdisj⟩

theorem ScorerInv.recordMulti (seats : List Nat) :
    ∀ (sc : PlacementScorer) (handNumber : Nat), ScorerInv sc →
      ScorerInv (sc.recordMultiElimination seats handNumber) := by
  induction seats with
  | nil => intro sc handNumber hinv; exact hinv
  | cons s rest ih =>
      intro sc handNumber hinv
      exact ih _ handNumber (ScorerInv.record sc s handNumber hinv)

/-- C9: the placement scorer never records a seat twice.  Recording a seat
that is no longer active leaves the state unchanged (for both the single and
the multi variant), and both record operations preserve the invariant that no
seat occurs twice in the elimination list and that the active set and the
elimination list are disjoint. -/
theorem scorer_no_double_record (sc : PlacementScorer) (seat : Nat) (seats : List Nat)
    (handNumber : Nat) :
    (seat ∉ sc.activePlayers → sc.recordElimination seat handNumber = sc) ∧
    ((∀ s ∈ seats, s ∉ sc.activePlayers) →
        sc.recordMultiElimination seats handNumber = sc) ∧
    (ScorerInv sc → ScorerInv (sc.recordElimination seat handNumber)) ∧
    (ScorerInv sc → ScorerInv (sc.recordMultiElimination seats handNumber)) := by
  refine ⟨recordElimination_of_not_mem sc seat handNumber, ?_,
    ScorerInv.record sc seat handNumber, ScorerInv.recordMulti seats sc handNumber⟩
  intro hall
  induction seats with
  | nil => rfl
  | cons s rest ih =>
      show (sc.recordElimination s handNumber).recordMultiElimination rest handNumber = sc
      rw [recordElimination_of_not_mem sc s handNumber (hall s (List.mem_cons_self s rest))]
      exact ih (fun x hx => hall x (List.mem_cons_of_mem s hx))

/-- Witness for `scorer_no_double_record` on a concrete scorer state: seat 3
is already eliminated, so recording it again is a no-op, and the invariant is
preserved. -/
theorem scorer_no_double_record_witness :
    ((PlacementScorer.new 4).recordElimination 3 5).recordElimination 3 6 =
        (PlacementScorer.new 4).recordElimination 3 5 ∧
      ((PlacementScorer.new 4).recordElimination 3 5).recordMultiElimination [3] 6 =
        (PlacementScorer.new 4).recordElimination 3 5 ∧
      ScorerInv (((PlacementScorer.new 4).recordElimination 3 5).recordElimination 3 6) ∧
      ScorerInv (((PlacementScorer.new 4).recordElimination 3 5).recordMultiElimination [3] 6) :=
  ⟨(scorer_no_double_record ((PlacementScorer.new 4).recordElimination 3 5) 3 [3] 6).1
      (by decide),
    (scorer_no_double_record ((PlacementScorer.new 4).recordElimination 3 5) 3 [3] 6).2.1
      (by decide),
    (scorer_no_double_record ((PlacementScorer.new 4).recordElimination 3 5) 3 [3] 6).2.2.1
      (by decide),
    (scorer_no_double_record ((PlacementScorer.new 4).recordElimination 3 5) 3 [3] 6).2.2.2
      (by decide)⟩

theorem lookup_append_assoc (l1 l2 : List (Nat × Nat)) (k : Nat) :
    (l1 ++ l2).lookup k =
      match l1.lookup k with
      | some v => some v
      | none => l2.lookup k := by
  induction l1 with
  | nil => rfl
  | cons p rest ih =>
      obtain ⟨a, b⟩ := p
      by_cases h : k = a
      · subst h
        simp [List.lookup]
      · have hba : (k == a) = false := beq_eq_false_iff_ne.mpr h
        simp only [List.cons_append, List.lookup, hba]
        exact ih

theorem lookup_const (l : List (Nat × Nat)) (k c : Nat) (hv : ∀ p ∈ l, p.2 = c)
    (hk : k ∈ l.map Prod.fst) : l.lookup k = some c := by
  induction l with
  | nil => simp at hk
  | cons p rest ih =>
      obtain ⟨a, b⟩ := p
      by_cases h : k = a
      · subst h
        have : b = c := hv (k, b) (List.mem_cons_self _ _)
        simp [List.lookup, this]
      · simp only [List.map_cons, List.mem_cons] at hk
        rcases hk with h1 | h2
        · exact absurd h1 h
        · have hba : (k == a) = false := beq_eq_false_iff_ne.mpr h
          simp only [List.lookup, hba]
          exact ih (fun p hp => hv p (List.mem_cons_of_mem _ hp)) h2

theorem lookup_not_mem (l : List (Nat × Nat)) (k : Nat) (h : k ∉ l.map Prod.fst) :
    l.lookup k = none := by
  induction l with
  | nil => rfl
  | cons p rest ih =>
      obtain ⟨a, b⟩ := p
      simp only [List.map_cons, List.mem_cons, not_or] at h
      have hba : (k == a) = false := beq_eq_false_iff_ne.mpr h.1
      simp only [List.lookup, hba]
      exact ih h.2

theorem countP_or_disjoint (l : List Elimination) (p q : Elimination → Bool)
    (h : ∀ x ∈ l, ¬(p x = true ∧ q x = true)) :
    l.countP (fun x => p x || q x) = l.countP p + l.countP q := by
  induction l with
  | nil => rfl
  | cons a rest ih =>
      have ha := h a (List.mem_cons_self _ _)
      have ih2 := ih (fun x hx => h x (List.mem_cons_of_mem _ hx))
      rw [List.countP_cons, List.countP_cons, List.countP_cons, ih2]
      cases hp : p a <;> cases hq : q a <;> simp [hp, hq] at ha ⊢ <;> omega

theorem countP_congr_mem (l : List Elimination) (p q : Elimination → Bool)
    (h : ∀ x ∈ l, p x = q x) : l.countP p = l.countP q := by
  induction l with
  | nil => rfl
  | cons a rest ih =>
      rw [List.countP_cons, List.countP_cons, h a (List.mem_cons_self _ _),
        ih (fun x hx => h x (List.mem_cons_of_mem _ hx))]

theorem countP_not_add (p : Elimination → Bool) (l : List Elimination) :
    l.countP p + l.countP (fun x => !p x) = l.length := by
  induction l with
  | nil => rfl
  | cons a rest ih =>
      rw [List.countP_cons, List.countP_cons]
      cases hp : p a <;> simp [hp] <;> omega

theorem countP_filter_sum :
    ∀ (hs : List Nat) (l : List Elimination), hs.Nodup → (∀ x ∈ l, x.handNumber ∈ hs) →
      (hs.map (fun h => l.countP (fun x => decide (x.handNumber = h)))).sum = l.length := by
  intro hs
  induction hs with
  | nil =>
      intro l _ hall
      cases l with
      | nil => rfl
      | cons a rest => exact absurd (hall a (List.mem_cons_self _ _)) (List.not_mem_nil _)
  | cons h rest ih =>
      intro l hnd hall
      have hh : h ∉ rest := (List.nodup_cons.mp hnd).1
      have hndr := (List.nodup_cons.mp hnd).2
      have hall2 : ∀ x ∈ l.filter (fun x => !decide (x.handNumber = h)), x.handNumber ∈ rest := by
        intro x hx
        obtain ⟨hxl, hxp⟩ := List.mem_filter.mp hx
        simp only [Bool.not_eq_true', decide_eq_false_iff_not] at hxp
        rcases List.mem_cons.mp (hall x hxl) with h1 | h2
        · exact absurd h1 hxp
        · exact h2
      have hmap : rest.map (fun h2 => l.countP (fun x => decide (x.handNumber = h2))) =
          rest.map (fun h2 =>
            (l.filter (fun x => !decide (x.handNumber = h))).countP
              (fun x => decide (x.handNumber = h2))) := by
        apply List.map_congr_left
        intro h2 hh2
        rw [List.countP_filter]
        apply countP_congr_mem
        intro x _
        by_cases hc : x.handNumber = h2
        · have hne : h2 ≠ h := fun he => hh (he ▸ hh2)
          simp [hc, hne]
        · simp [hc]
      rw [List.map_cons, List.sum_cons, hmap, ih _ hndr hall2]
      have hflen : (l.filter (fun x => !decide (x.handNumber = h))).length =
          l.countP (fun x => !decide (x.handNumber = h)) :=
        (List.countP_eq_length_filter _ _).symm
      have hsplit := countP_not_add (fun x => decide (x.handNumber = h)) l
      rw [hflen]
      omega

theorem lookup_assignPlacements (elims : List Elimination)
    (hnd : (elims.map (fun e => e.seat)).Nodup) :
    ∀ (hs : List Nat), List.Sorted (fun a b => a > b) hs →
      ∀ (cur : Nat) (e : Elimination), e ∈ elims → e.handNumber ∈ hs →
        (assignPlacements elims hs cur).lookup e.seat =
          some (cur + elims.countP
            (fun x => decide (x.handNumber ∈ hs) && decide (e.handNumber < x.handNumber))) := by
  intro hs
  induction hs with
  | nil => intro _ cur e _ hmem; exact absurd hmem (List.not_mem_nil _)
  | cons h rest ih =>
      intro hsort cur e he hmem
      have hgt : ∀ b ∈ rest, h > b := fun b hb => (List.pairwise_cons.mp hsort).1 b hb
      have hsort2 : List.Sorted (fun a b => a > b) rest := (List.pairwise_cons.mp hsort).2
      simp only [assignPlacements]
      rw [lookup_append_assoc]
      by_cases hcase : e.handNumber = h
      · have hegroup : e ∈ elims.filter (fun x => decide (x.handNumber = h)) :=
          List.mem_filter.mpr ⟨he, by simp [hcase]⟩
        have hvals : ∀ p ∈ (elims.filter (fun x => decide (x.handNumber = h))).map
            (fun x => (x.seat, cur)), p.2 = cur := by
          intro p hp
          obtain ⟨x, _, rfl⟩ := List.mem_map.mp hp
          rfl
        have hkey : e.seat ∈ ((elims.filter (fun x => decide (x.handNumber = h))).map
            (fun x => (x.seat, cur))).map Prod.fst :=
          List.mem_map.mpr ⟨(e.seat, cur), List.mem_map.mpr ⟨e, hegroup, rfl⟩, rfl⟩
        rw [lookup_const _ e.seat cur hvals hkey]
        have hzero : elims.countP
            (fun x => decide (x.handNumber ∈ h :: rest) && decide (e.handNumber < x.handNumber)) = 0 := by
          rw [List.countP_eq_zero]
          intro x hx
          simp only [Bool.and_eq_true, decide_eq_true_eq, not_and]
          intro hmem2 hlt
          rcases List.mem_cons.mp hmem2 with h1 | h2
          · rw [h1, hcase] at hlt
            exact lt_irrefl _ hlt
          · exact absurd hlt (not_lt_of_gt (hcase ▸ hgt _ h2))
        rw [hzero]
        rfl
      · have hmem2 : e.handNumber ∈ rest := by
          rcases List.mem_cons.mp hmem with h1 | h2
          · exact absurd h1 hcase
          · exact h2
        have hkeys : e.seat ∉
            ((elims.filter (fun x => decide (x.handNumber = h))).map
              (fun x => (x.seat, cur))).map Prod.fst := by
          intro hk
          obtain ⟨p, hp, hfst⟩ := List.mem_map.mp hk
          obtain ⟨x, hxg, rfl⟩ := List.mem_map.mp hp
          obtain ⟨hxe, hxh⟩ := List.mem_filter.mp hxg
          have hxeq : x = e := List.inj_on_of_nodup_map hnd hxe he hfst
          rw [hxeq] at hxh
          simp only [decide_eq_true_eq] at hxh
          exact hcase hxh
        rw [lookup_not_mem _ _ hkeys, ih hsort2 _ e he hmem2]
        have hpoint : ∀ x ∈ elims,
            (decide (x.handNumber ∈ h :: rest) && decide (e.handNumber < x.handNumber)) =
              (decide (x.handNumber = h) ||
                (decide (x.handNumber ∈ rest) && decide (e.handNumber < x.handNumber))) := by
          intro x _
          by_cases hxh : x.handNumber = h
          · have hlt : e.handNumber < h := hgt _ hmem2
            simp [hxh, hlt]
          · by_cases hxr : x.handNumber ∈ rest
            · simp [hxh, hxr]
            · have hnm : x.handNumber ∉ h :: rest := by
                simp [List.mem_cons, hxh, hxr]
              simp [hxh, hxr, hnm]
        have hdisj : ∀ x ∈ elims,
            ¬(decide (x.handNumber = h) = true ∧
              (decide (x.handNumber ∈ rest) && decide (e.handNumber < x.handNumber)) = true) := by
          intro x _
          simp only [decide_eq_true_eq, Bool.and_eq_true, not_and]
          intro hxh hxr
          exact absurd (hgt h (hxh ▸ hxr)) (lt_irrefl h)
        have hsplit : elims.countP
            (fun x => decide (x.handNumber ∈ h :: rest) && decide (e.handNumber < x.handNumber)) =
          elims.countP (fun x => decide (x.handNumber = h)) +
            elims.countP
              (fun x => decide (x.handNumber ∈ rest) && decide (e.handNumber < x.handNumber)) := by
          rw [countP_congr_mem elims _ _ hpoint]
          exact countP_or_disjoint elims _ _ hdisj
        have hglen : (elims.filter (fun x => decide (x.handNumber = h))).length =
            elims.countP (fun x => decide (x.handNumber = h)) :=
          (List.countP_eq_length_filter _ _).symm
        rw [hsplit]
        show some _ = _
        rw [hglen]
        congr 1
        omega

theorem placement_formula (sc : PlacementScorer) (hinv : ScorerInv sc)
    (e : Elimination) (he : e ∈ sc.eliminations) :
    (sc.calculatePlacements).lookup e.seat =
      some (sc.activePlayers.length + 1 +
        sc.eliminations.countP (fun x => decide (e.handNumber < x.handNumber))) := by
  unfold PlacementScorer.calculatePlacements
  have hkeys : e.seat ∉ (sc.activePlayers.map (fun s => (s, 1))).map Prod.fst := by
    intro hk
    obtain ⟨p, hp, hfst⟩ := List.mem_map.mp hk
    obtain ⟨s, hsmem, rfl⟩ := List.mem_map.mp hp
    exact hinv.2.2 e he (hfst ▸ hsmem)
  rw [lookup_append_assoc, lookup_not_mem _ _ hkeys]
  have hperm := List.perm_insertionSort (fun a b => a ≥ b)
    ((sc.eliminations.map (fun e => e.handNumber)).dedup)
  have hsorted_ge := List.sorted_insertionSort (fun a b => a ≥ b)
    ((sc.eliminations.map (fun e => e.handNumber)).dedup)
  have hnodup : (((sc.eliminations.map (fun e => e.handNumber)).dedup).insertionSort
      (fun a b => a ≥ b)).Nodup :=
    (hperm.nodup_iff).mpr (List.nodup_dedup _)
  have hsorted : List.Sorted (fun a b => a > b)
      (((sc.eliminations.map (fun e => e.handNumber)).dedup).insertionSort (fun a b => a ≥ b)) :=
    (hsorted_ge.and hnodup).imp (fun hab => lt_of_le_of_ne hab.1 (Ne.symm hab.2))
  have hmemall : ∀ x ∈ sc.eliminations, x.handNumber ∈
      ((sc.eliminations.map (fun e => e.handNumber)).dedup).insertionSort (fun a b => a ≥ b) := by
    intro x hx
    rw [hperm.mem_iff]
    exact List.mem_dedup.mpr (List.mem_map.mpr ⟨x, hx, rfl⟩)
  rw [lookup_assignPlacements sc.eliminations hinv.2.1 _ hsorted _ e he (hmemall e he)]
  show some _ = some _
  refine congrArg some (congrArg (fun c => sc.activePlayers.length + 1 + c) ?_)
  apply countP_congr_mem
  intro x hx
  simp [hmemall x hx]

theorem placement_active (sc : PlacementScorer) (s : Nat) (hs : s ∈ sc.activePlayers) :
    (sc.calculatePlacements).lookup s = some 1 := by
  unfold PlacementScorer.calculatePlacements
  have hvals : ∀ p ∈ sc.activePlayers.map (fun x => (x, 1)), p.2 = 1 := by
    intro p hp
    obtain ⟨x, _, rfl⟩ := List.mem_map.mp hp
    rfl
  have hkey : s ∈ (sc.activePlayers.map (fun x => (x, 1))).map Prod.fst :=
    List.mem_map.mpr ⟨(s, 1), List.mem_map.mpr ⟨s, hs, rfl⟩, rfl⟩
  rw [lookup_append_assoc, lookup_const _ s 1 hvals hkey]

/-- C8: placement assignment.  All seats eliminated on the same hand receive
the same placement; the group eliminated on the next-earlier hand receives
the later group's rank plus that group's size; every surviving seat receives
placement 1, and when no seat survives the group busting on the latest hand
receives placement 1; and the same-hand group sizes together with the
surviving seats account for all `numPlayers` seats. -/
theorem placement_assignment (sc : PlacementScorer) (hinv : ScorerInv sc)
    (hcomp : scorerComplete sc) :
    (∀ e1 ∈ sc.eliminations, ∀ e2 ∈ sc.eliminations, e1.handNumber = e2.handNumber →
        (sc.calculatePlacements).lookup e1.seat = (sc.calculatePlacements).lookup e2.seat) ∧
    (∀ e1 ∈ sc.eliminations, ∀ e2 ∈ sc.eliminations, e2.handNumber < e1.handNumber →
        (∀ x ∈ sc.eliminations,
          ¬(e2.handNumber < x.handNumber ∧ x.handNumber < e1.handNumber)) →
        ∀ p1, (sc.calculatePlacements).lookup e1.seat = some p1 →
          (sc.calculatePlacements).lookup e2.seat =
            some (p1 + sc.eliminations.countP
              (fun x => decide (x.handNumber = e1.handNumber)))) ∧
    (∀ s ∈ sc.activePlayers, (sc.calculatePlacements).lookup s = some 1) ∧
    (sc.activePlayers = [] → ∀ e ∈ sc.eliminations,
        (∀ x ∈ sc.eliminations, x.handNumber ≤ e.handNumber) →
        (sc.calculatePlacements).lookup e.seat = some 1) ∧
    sc.activePlayers.length +
        ((sc.eliminations.map (fun e => e.handNumber)).dedup.map
          (fun h => sc.eliminations.countP (fun x => decide (x.handNumber = h)))).sum
      = sc.numPlayers := by
  refine ⟨?_, ?_, fun s hs => placement_active sc s hs, ?_, ?_⟩
  · intro e1 he1 e2 he2 heq
    rw [placement_formula sc hinv e1 he1, placement_formula sc hinv e2 he2, heq]
  · intro e1 he1 e2 he2 hlt hgap p1 hp1
    rw [placement_formula sc hinv e1 he1] at hp1
    have hp1v : p1 = sc.activePlayers.length + 1 +
        sc.eliminations.countP (fun x => decide (e1.handNumber < x.handNumber)) :=
      (Option.some_inj.mp hp1).symm
    rw [placement_formula sc hinv e2 he2]
    have hpoint : ∀ x ∈ sc.eliminations,
        (decide (e2.handNumber < x.handNumber)) =
          (decide (x.handNumber = e1.handNumber) || decide (e1.handNumber < x.handNumber)) := by
      intro x hx
      by_cases h1 : x.handNumber = e1.handNumber
      · simp [h1, hlt]
      · by_cases h2 : e1.handNumber < x.handNumber
        · have hc : e2.handNumber < x.handNumber := lt_trans hlt h2
          simp [h1, h2, hc]
        · have hxlt : x.handNumber < e1.handNumber := lt_of_le_of_ne (not_lt.mp h2) h1
          have hnot : ¬ e2.handNumber < x.handNumber := fun hc => hgap x hx ⟨hc, hxlt⟩
          simp [h1, h2, hnot]
    have hdisj2 : ∀ x ∈ sc.eliminations,
        ¬(decide (x.handNumber = e1.handNumber) = true ∧
          decide (e1.handNumber < x.handNumber) = true) := by
      intro x _
      simp only [decide_eq_true_eq, not_and]
      intro hx1 hx2
      exact lt_irrefl _ (hx1 ▸ hx2)
    rw [countP_congr_mem _ _ _ hpoint, countP_or_disjoint _ _ _ hdisj2, hp1v]
    congr 1
    omega
  · intro hempty e he hmax
    rw [placement_formula sc hinv e he, hempty]
    have hzero : sc.eliminations.countP (fun x => decide (e.handNumber < x.handNumber)) = 0 := by
      rw [List.countP_eq_zero]
      intro x hx
      simp only [decide_eq_true_eq]
      exact not_lt.mpr (hmax x hx)
    rw [hzero]
    rfl
  · rw [countP_filter_sum ((sc.eliminations.map (fun e => e.handNumber)).dedup)
      sc.eliminations (List.nodup_dedup _)
      (fun x hx => List.mem_dedup.mpr (List.mem_map.mpr ⟨x, hx, rfl⟩))]
    exact hcomp

/-- Witness for `placement_assignment`: seats 2 and 3 bust together on hand 5,
seat 4 busts on hand 7, seat 1 survives; the tied pair shares placement 3,
one past the placement 2 of the hand-7 group, and the survivor places 1st. -/
theorem placement_assignment_witness :
    ScorerInv (((PlacementScorer.new 4).recordMultiElimination [2, 3] 5).recordElimination 4 7) ∧
    scorerComplete
      (((PlacementScorer.new 4).recordMultiElimination [2, 3] 5).recordElimination 4 7) ∧
    ((((PlacementScorer.new 4).recordMultiElimination [2, 3] 5).recordElimination
        4 7).calculatePlacements).lookup 2 =
      ((((PlacementScorer.new 4).recordMultiElimination [2, 3] 5).recordElimination
        4 7).calculatePlacements).lookup 3 ∧
    ((((PlacementScorer.new 4).recordMultiElimination [2, 3] 5).recordElimination
        4 7).calculatePlacements).lookup 2 = some 3 ∧
    ((((PlacementScorer.new 4).recordMultiElimination [2, 3] 5).recordElimination
        4 7).calculatePlacements).lookup 1 = some 1 := by
  refine ⟨by decide, by decide, ?_, ?_, ?_⟩
  · exact (placement_assignment
      (((PlacementScorer.new 4).recordMultiElimination [2, 3] 5).recordElimination 4 7)
      (by decide) (by decide)).1
      ⟨2, "Player_2", 5⟩ (by decide) ⟨3, "Player_3", 5⟩ (by decide) (by decide)
  · exact (placement_assignment
      (((PlacementScorer.new 4).recordMultiElimination [2, 3] 5).recordElimination 4 7)
      (by decide) (by decide)).2.1
      ⟨4, "Player_4", 7⟩ (by decide) ⟨2, "Player_2", 5⟩ (by decide) (by decide) (by decide)
      2 (by decide)
  · exact (placement_assignment
      (((PlacementScorer.new 4).recordMultiElimination [2, 3] 5).recordElimination 4 7)
      (by decide) (by decide)).2.2.1 1 (by decide)

/-- C4 counterexample: with nothing to call (`toCall = 0 - 0 = 0`), the
legal-action list the runner builds into the agent's observation still
contains "fold", so the claimed "fold iff toCall strictly positive" fails for
the set presented to an agent. -/
theorem runner_fold_always_offered :
    "fold" ∈ runnerLegalActions 100 0 0 2 ∧ ¬((0 : Int) - 0 > 0) := by decide

set_option maxHeartbeats 3000000 in
/-- C4 (amended): the engine's `get_legal_actions` for a non-folded,
non-all-in player never contains both check and call and contains fold
exactly when `toCall = currentBet - betThisRound` is strictly positive, while
the legal-action list the runner presents to the agent never contains both
check and call but always contains "fold" (a fold submitted with nothing to
call is normalised to a check). -/
theorem legal_action_set_spec :
    (∀ (player : PlayerState) (betting : BettingState),
      player.hasFolded = false → player.isAllIn = false →
      (¬((get_legal_actions player betting).any (fun a => a.actionType == ActionType.check) = true ∧
         (get_legal_actions player betting).any (fun a => a.actionType == ActionType.call) = true)) ∧
      ((get_legal_actions player betting).any (fun a => a.actionType == ActionType.fold) = true ↔
        betting.currentBet - player.betThisRound > 0)) ∧
    (∀ stack betThisRound currentBet minRaise : Int,
      "fold" ∈ runnerLegalActions stack betThisRound currentBet minRaise ∧
      ¬("check" ∈ runnerLegalActions stack betThisRound currentBet minRaise ∧
        "call" ∈ runnerLegalActions stack betThisRound currentBet minRaise)) := by
  constructor
  · intro player betting hnf hna
    unfold get_legal_actions
    rw [hnf, hna]
    simp only [Bool.or_self, Bool.false_eq_true, if_false, reduceIte]
    split_ifs <;> simp [List.any_append] <;> omega
  · intro stack betThisRound currentBet minRaise
    unfold runnerLegalActions
    dsimp only
    split_ifs <;> simp

/-- Witness for `legal_action_set_spec` at a concrete player facing a bet and
a concrete observation with nothing to call. -/
theorem legal_action_set_spec_witness :
    (¬((get_legal_actions { seat := 1, stack := 100, betThisRound := 2 }
          { pot := 10, currentBet := 6, minRaise := 4, bigBlind := 2 }).any
            (fun a => a.actionType == ActionType.check) = true ∧
       (get_legal_actions { seat := 1, stack := 100, betThisRound := 2 }
          { pot := 10, currentBet := 6, minRaise := 4, bigBlind := 2 }).any
            (fun a => a.actionType == ActionType.call) = true)) ∧
    ((get_legal_actions { seat := 1, stack := 100, betThisRound := 2 }
        { pot := 10, currentBet := 6, minRaise := 4, bigBlind := 2 }).any
          (fun a => a.actionType == ActionType.fold) = true ↔ (6 : Int) - 2 > 0) ∧
    "fold" ∈ runnerLegalActions 100 0 0 2 ∧
    ¬("check" ∈ runnerLegalActions 100 0 0 2 ∧ "call" ∈ runnerLegalActions 100 0 0 2) :=
  ⟨(legal_action_set_spec.1 { seat := 1, stack := 100, betThisRound := 2 }
      { pot := 10, currentBet := 6, minRaise := 4, bigBlind := 2 } rfl rfl).1,
   (legal_action_set_spec.1 { seat := 1, stack := 100, betThisRound := 2 }
      { pot := 10, currentBet := 6, minRaise := 4, bigBlind := 2 } rfl rfl).2,
   (legal_action_set_spec.2 100 0 0 2).1,
   (legal_action_set_spec.2 100 0 0 2).2⟩

/-- C7: the runner's conversion of a submitted raise clamps the requested
raise-to into `[obs.min_raise, obs.max_raise]`, where the observation's
`max_raise` is `stack + betThisRound`; the result lies in that interval
whenever it is nonempty, and a raise submitted with no bet outstanding becomes
a bet (otherwise a raise).  A submitted `raise_to` of 0 falls through Python's
`or` to `obs.min_raise`, which coincides with the clamp of 0 for the
nonnegative bounds the runner produces. -/
theorem convert_action_clamps (agentAction : AgentAction) (player : Player)
    (obs : Observation) (gameCurrentBet : Int) (v : Int)
    (hact : agentAction.action = "raise") (hrt : agentAction.raiseTo = some v)
    (hmax : obs.maxRaise = player.stack + player.betThisRound)
    (hnn : 0 ≤ obs.minRaise) (hle : obs.minRaise ≤ obs.maxRaise) :
    (convert_action agentAction player obs gameCurrentBet).amount =
      max obs.minRaise (min v obs.maxRaise) ∧
    obs.minRaise ≤ (convert_action agentAction player obs gameCurrentBet).amount ∧
    (convert_action agentAction player obs gameCurrentBet).amount ≤
      player.stack + player.betThisRound ∧
    (convert_action agentAction player obs gameCurrentBet).actionType =
      (if gameCurrentBet = 0 then ActionType.bet else ActionType.raise) := by
  unfold convert_action
  rw [hact, hrt]
  simp only [reduceIte, String.reduceEq]
  have hub : min v obs.maxRaise ≤ player.stack + player.betThisRound :=
    (min_le_right _ _).trans (le_of_eq hmax)
  have hub0 : min obs.minRaise obs.maxRaise ≤ player.stack + player.betThisRound :=
    (min_le_right _ _).trans (le_of_eq hmax)
  have hle2 : obs.minRaise ≤ player.stack + player.betThisRound := hle.trans (le_of_eq hmax)
  by_cases hv : v = 0
  · subst hv
    simp only [ne_eq, not_true_eq_false, if_false, reduceIte]
    by_cases hb : gameCurrentBet = 0
    · simp only [hb, reduceIte]
      exact ⟨by omega, le_max_left _ _, max_le hle2 hub0, by trivial⟩
    · simp only [if_neg hb]
      exact ⟨by omega, le_max_left _ _, max_le hle2 hub0, by trivial⟩
  · simp only [ne_eq, hv, not_false_eq_true, if_true, reduceIte]
    by_cases hb : gameCurrentBet = 0
    · simp only [hb, reduceIte]
      exact ⟨by trivial, le_max_left _ _, max_le hle2 hub, by trivial⟩
    · simp only [if_neg hb]
      exact ⟨by trivial, le_max_left _ _, max_le hle2 hub, by trivial⟩

/-- Witness for `convert_action_clamps`: a raise-to of 12 when the minimum
raise-to is 15 is clamped up to 15; current bet 10 keeps it a raise. -/
theorem convert_action_clamps_witness :
    (convert_action { action := "raise", raiseTo := some 12 }
        { seat := 1, name := "A", stack := 100 }
        { handNumber := 1, street := "preflop", mySeat := 1, myHoleCards := [],
          myStack := 100, communityCards := [], potSize := 13, currentBet := 10,
          minRaise := 15, maxRaise := 100, smallBlind := 1, bigBlind := 2,
          buttonSeat := 1, legalActions := ["fold", "call", "raise"] } 10).amount =
      max 15 (min 12 100) ∧
    (15 : Int) ≤ (convert_action { action := "raise", raiseTo := some 12 }
        { seat := 1, name := "A", stack := 100 }
        { handNumber := 1, street := "preflop", mySeat := 1, myHoleCards := [],
          myStack := 100, communityCards := [], potSize := 13, currentBet := 10,
          minRaise := 15, maxRaise := 100, smallBlind := 1, bigBlind := 2,
          buttonSeat := 1, legalActions := ["fold", "call", "raise"] } 10).amount ∧
    (convert_action { action := "raise", raiseTo := some 12 }
        { seat := 1, name := "A", stack := 100 }
        { handNumber := 1, street := "preflop", mySeat := 1, myHoleCards := [],
          myStack := 100, communityCards := [], potSize := 13, currentBet := 10,
          minRaise := 15, maxRaise := 100, smallBlind := 1, bigBlind := 2,
          buttonSeat := 1, legalActions := ["fold", "call", "raise"] } 10).amount ≤
      100 + 0 ∧
    (convert_action { action := "raise", raiseTo := some 12 }
        { seat := 1, name := "A", stack := 100 }
        { handNumber := 1, street := "preflop", mySeat := 1, myHoleCards := [],
          myStack := 100, communityCards := [], potSize := 13, currentBet := 10,
          minRaise := 15, maxRaise := 100, smallBlind := 1, bigBlind := 2,
          buttonSeat := 1, legalActions := ["fold", "call", "raise"] } 10).actionType =
      (if (10 : Int) = 0 then ActionType.bet else ActionType.raise) :=
  convert_action_clamps { action := "raise", raiseTo := some 12 }
    { seat := 1, name := "A", stack := 100 }
    { handNumber := 1, street := "preflop", mySeat := 1, myHoleCards := [],
      myStack := 100, communityCards := [], potSize := 13, currentBet := 10,
      minRaise := 15, maxRaise := 100, smallBlind := 1, bigBlind := 2,
      buttonSeat := 1, legalActions := ["fold", "call", "raise"] } 10 12
    rfl rfl (by decide) (by decide) (by decide)

/-- C5 counterexample: with check legal (nothing to call) and every model
attempt returning an empty response, the driver's forced action is fold (not
check) and its retry count is `maxRetries + 1` (not `maxRetries`), refuting
the claimed forced-check behaviour and retry count. -/
theorem llm_forced_action_claim_false :
    "check" ∈ obsFlopCheck.legalActions ∧
    (getAction obsFlopCheck (fun _ => LlmAttempt.empty) 3).action = "fold" ∧
    (getAction obsFlopCheck (fun _ => LlmAttempt.empty) 3).forced = true ∧
    (getAction obsFlopCheck (fun _ => LlmAttempt.empty) 3).retries = 3 + 1 := by
  refine ⟨by decide, ?_, ?_, ?_⟩ <;> rfl

theorem getActionGo_all_fail (observation : Observation) (attempts : Nat → LlmAttempt)
    (hfail : ∀ i, attemptFails observation (attempts i)) :
    ∀ (fuel turn retries : Nat),
      getActionGo observation attempts fuel turn retries =
        { action := "fold", reasoning := "Forced fold due to invalid actions",
          forced := true, retries := retries + fuel } := by
  intro fuel
  induction fuel with
  | zero => intro turn retries; rfl
  | succ f ih =>
      intro turn retries
      have h := hfail turn
      cases hat : attempts turn with
      | exn =>
          rw [getActionGo, hat, ih (turn + 1) (retries + 1)]
          simp only [AgentAction.mk.injEq, true_and, and_true]
          omega
      | empty =>
          rw [getActionGo, hat, ih (turn + 1) (retries + 1)]
          simp only [AgentAction.mk.injEq, true_and, and_true]
          omega
      | parsed oa =>
          cases oa with
          | none =>
              rw [getActionGo, hat, ih (turn + 1) (retries + 1)]
              simp only [AgentAction.mk.injEq, true_and, and_true]
              omega
          | some action =>
              rw [hat] at h
              have hvf : (llmValidateAction action observation).1 = false := h
              rw [getActionGo, hat]
              simp only [hvf, Bool.false_eq_true, if_false, reduceIte]
              rw [ih (turn + 1) (retries + 1)]
              simp only [AgentAction.mk.injEq, true_and, and_true]
              omega

/-- C5 (amended): when every model round trip fails (empty response, parse
failure, validation failure or transport exception), the driver returns a
forced fold - regardless of whether check is legal - with `forced = true` and
a retry count of `maxRetries + 1` (the loop increments `retries` once per
failed attempt and exits only when it exceeds `maxRetries`). -/
theorem llm_retry_cap_forced_fold (observation : Observation)
    (attempts : Nat → LlmAttempt) (maxRetries : Nat)
    (hfail : ∀ i, attemptFails observation (attempts i)) :
    getAction observation attempts maxRetries =
      { action := "fold", reasoning := "Forced fold due to invalid actions",
        forced := true, retries := maxRetries + 1 } := by
  unfold getAction
  rw [getActionGo_all_fail observation attempts hfail (maxRetries + 1) 0 0]
  simp only [AgentAction.mk.injEq, true_and, and_true]
  omega

/-- Witness for `llm_retry_cap_forced_fold`: three maximum retries and a model
that always replies with unparseable text yield a forced fold with four
retries. -/
theorem llm_retry_cap_forced_fold_witness :
    getAction obsFlopCheck (fun _ => LlmAttempt.parsed none) 3 =
      { action := "fold", reasoning := "Forced fold due to invalid actions",
        forced := true, retries := 3 + 1 } :=
  llm_retry_cap_forced_fold obsFlopCheck (fun _ => LlmAttempt.parsed none) 3
    (fun _ => trivial)

/-- C1: chip conservation fails across a full hand.  The hand starts with
210 chips in the stacks; seat 1 raises to 10, seat 2 folds after posting the
small blind of 1, seat 3 calls all-in; every action is accepted by
`apply_action` and the hand completes, yet only 209 chips remain: the side-pot
construction iterates over non-folded players only, so seat 2's folded small
blind is in the pot (21) but in no side pot (total 20) and is never paid
out. -/
theorem chip_conservation_violated :
    gameA.totalStacks = 210 ∧
    gameAStep1.2.1 = true ∧ gameAStep2.2.1 = true ∧ gameAStep3.2.1 = true ∧
    gameAStep3.1.handComplete = true ∧
    gameAStep3.1.totalStacks = 209 := by decide

/-- C3: side pots do not include folded seats' contributions.  In the
completed scenario hand, seat 2 folded after contributing 1 chip
(`betThisHand = 1`), the pot is 21, but the only side pot is (20, {1, 3}):
the per-gap amounts are computed over non-folded seats only, so the side-pot
amounts sum to 20, not to the full pot. -/
theorem side_pots_drop_folded_contribution :
    gameAStep3.1.sidePots = [(20, [1, 3])] ∧
    (gameAStep3.1.sidePots.map (fun p => p.1)).sum = 20 ∧
    gameAStep3.1.pot = 21 ∧
    (gameAStep3.1.getPlayer 2).hasFolded = true ∧
    (gameAStep3.1.getPlayer 2).betThisHand = 1 := by decide

/-- C2: an all-in raise for less than the minimum raise reopens the action in
the code.  In scenario S4, after seat 1's raise to 10 (seat 1 `hasActed`) the
minimum raise-to is 18; seat 3's accepted all-in to 15 is below it, yet
`apply_action` resets seat 1's `hasActed` to false, moves the action back to
seat 1, and offers seat 1 a re-raise to 20 - the short all-in reopened the
betting, contrary to the claim. -/
theorem short_all_in_reopens_action :
    (gameBStep2.1.getPlayer 1).hasActed = true ∧
    gameBStep2.1.currentBet + gameBStep2.1.minRaise = 18 ∧
    gameBStep3.2.1 = true ∧
    (gameBStep3.1.getPlayer 1).hasActed = false ∧
    gameBStep3.1.actionTo = some 1 ∧
    { actionType := ActionType.raise, amount := 20 } ∈
      get_legal_actions (gameBStep3.1.getPlayer 1).toState gameBStep3.1.getBettingState := by
  decide

end LivePokerBench
